import Mathlib

/-!
# Verification of the screenshot-extractor scripts

Shallow embedding of the two Python scripts of the repository:

* `src/extract-screenshots.py`            (the "root" variant, `runRoot`)
* `src/examples/browser-mcp/extract-screenshots.py`  (the "mcp" variant, `runMcp`)

Parsed JSON documents are modelled by `JVal`; Python's dynamic operations
(`dict.get`, truthiness, `len`, iteration, `in`, subscripting) are modelled by
total Lean functions returning `Except PyErr _`, where `PyErr` stands for the
Python exception that the corresponding operation would raise.

The filesystem is abstracted:
* the input file is an `InputFile` (missing / unreadable / invalid JSON /
  parsed value) — this models `os.path.exists`, `open`, and `json.load`;
* each attempted file write is resolved by an oracle `w : String → Bool`
  (`true` = the write succeeds); a failed write raises `PyErr.osErr`;
* a successful write appends `(path, content)` to the run's `files` list;
* `os.makedirs(output_dir, exist_ok=True)` sets the `dirCreated` flag;
* every `print` of the scripts is recorded as a `LogEvent`; the multi-line
  confirmation block after a successful write is recorded as one `detected`
  event, and each informational per-entry line of the mcp variant as one
  `skipNav`/`skipNoData` event.

`datetime.fromisoformat(..).strftime('%Y%m%d_%H%M%S')` (library behaviour) is
abstracted by an oracle `strf : String → Option String` (`none` = the library
call raises, giving `'unknown_time'`); `json.loads` on the inner wrapped text
is abstracted by an oracle `loads : String → Option JVal` (`none` =
`json.JSONDecodeError`).
-/

/-- A parsed JSON value (the result of Python's `json.load`). -/
inductive JVal where
  | null
  | bool (b : Bool)
  | num (n : Int)
  | str (s : String)
  | arr (xs : List JVal)
  | obj (kvs : List (String × JVal))

/-- Python exceptions relevant to the two scripts. -/
inductive PyErr where
  | attrErr      -- AttributeError (e.g. `.get` / `.startswith` / `.replace` on a non-dict / non-str)
  | typeErr      -- TypeError (e.g. `len()` of an int, iterating an int, `in` on an int)
  | keyErr       -- KeyError
  | indexErr     -- IndexError
  | jsonDecode   -- json.JSONDecodeError
  | osErr        -- OSError from a failed file write
deriving DecidableEq, Repr

/-- First-match association lookup, modelling access to a Python dict's key. -/
def lookupKey : List (String × JVal) → String → Option JVal
  | [], _ => none
  | (k, v) :: rest, key => if k = key then some v else lookupKey rest key

/-- `d.get(key, dflt)` for a value known to be a dict; total version used on
objects (returns the default on non-objects; only applied to objects). -/
def JVal.getD : JVal → String → JVal → JVal
  | .obj kvs, key, dflt => (lookupKey kvs key).getD dflt
  | _, _, dflt => dflt

/-- `v.get(key, dflt)`: succeeds on a dict, raises `AttributeError` otherwise. -/
def dictGet : JVal → String → JVal → Except PyErr JVal
  | .obj kvs, key, dflt => .ok ((lookupKey kvs key).getD dflt)
  | _, _, _ => .error .attrErr

/-- Python truthiness of a JSON value. -/
def truthy : JVal → Bool
  | .null => false
  | .bool b => b
  | .num n => decide (n ≠ 0)
  | .str s => decide (s ≠ "")
  | .arr xs => !xs.isEmpty
  | .obj kvs => !kvs.isEmpty

/-- Python `len(v)`: defined on lists, strings and dicts, `TypeError` otherwise. -/
def pyLen : JVal → Except PyErr Nat
  | .arr xs => .ok xs.length
  | .str s => .ok s.length
  | .obj kvs => .ok kvs.length
  | _ => .error .typeErr

/-- Python iteration `for x in v`: lists yield elements, strings yield
one-character strings, dicts yield their keys; `TypeError` otherwise. -/
def pyIter : JVal → Except PyErr (List JVal)
  | .arr xs => .ok xs
  | .str s => .ok (s.data.map (fun c => .str (String.singleton c)))
  | .obj kvs => .ok (kvs.map (fun kv => .str kv.1))
  | _ => .error .typeErr

/-- Equality of a JSON value with a string literal (Python `==` against a str). -/
def isStrEq (v : JVal) (key : String) : Bool :=
  match v with
  | .str s => decide (s = key)
  | _ => false

/-- `pre` is a prefix of `s` (Python `s.startswith(pre)`), computed on the
code-point lists so that it evaluates by kernel reduction. -/
def strStartsWith (s pre : String) : Bool :=
  pre.data.isPrefixOf s.data

/-- Replace every non-overlapping occurrence of `pat` by `rep`, left to right
(Python `s.replace(pat, rep)` for a non-empty `pat`); `fuel` bounds the number
of inspected positions (`s.length` suffices). -/
def replaceAux (pat rep : List Char) : Nat → List Char → List Char
  | 0, l => l
  | _ + 1, [] => []
  | fuel + 1, c :: rest =>
    if pat.isPrefixOf (c :: rest) then
      rep ++ replaceAux pat rep fuel (List.drop pat.length (c :: rest))
    else c :: replaceAux pat rep fuel rest

/-- Python `s.replace(pat, rep)`. -/
def strReplace (s pat rep : String) : String :=
  ⟨replaceAux pat.data rep.data s.data.length s.data⟩

/-- Split at every non-overlapping occurrence of `sep`, left to right (Python
`s.split(sep)` for a non-empty `sep`); always returns at least one piece. -/
def splitOnAux (sep : List Char) : Nat → List Char → List (List Char)
  | 0, l => [l]
  | _ + 1, [] => [[]]
  | fuel + 1, c :: rest =>
    if sep.isPrefixOf (c :: rest) then
      [] :: splitOnAux sep fuel (List.drop sep.length (c :: rest))
    else
      match splitOnAux sep fuel rest with
      | [] => [[c]]
      | h :: t => (c :: h) :: t

/-- Python `s.split(sep)`. -/
def strSplitOn (s sep : String) : List String :=
  (splitOnAux sep.data s.data.length s.data).map (fun l => ⟨l⟩)

/-- Python `key in v` for a string key: dict key membership, list membership,
substring test on strings; `TypeError` otherwise. -/
def pyIn (key : String) : JVal → Except PyErr Bool
  | .obj kvs => .ok (lookupKey kvs key).isSome
  | .arr xs => .ok (xs.any (fun v => isStrEq v key))
  | .str s => .ok (decide (2 ≤ (strSplitOn s key).length))
  | _ => .error .typeErr

/-- Python `v[key]` for a string key: dict lookup (`KeyError` when absent),
`TypeError` on lists/strings/scalars. -/
def pySubscript : JVal → String → Except PyErr JVal
  | .obj kvs, key =>
    match lookupKey kvs key with
    | some v => .ok v
    | none => .error .keyErr
  | _, _ => .error .typeErr

/-- Python `v[0]`: list indexing (`IndexError` out of range), a one-character
string for strings, `KeyError` for dicts (integer key absent), `TypeError`
otherwise. -/
def pyIndex : JVal → Nat → Except PyErr JVal
  | .arr xs, n =>
    match xs.get? n with
    | some v => .ok v
    | none => .error .indexErr
  | .str s, n =>
    match s.data.get? n with
    | some c => .ok (.str (String.singleton c))
    | none => .error .indexErr
  | .obj _, _ => .error .keyErr
  | _, _ => .error .typeErr

/-- The character of a decimal digit, modelling Python's `%d` rendering. -/
def decChar : Nat → Char
  | 0 => '0'
  | 1 => '1'
  | 2 => '2'
  | 3 => '3'
  | 4 => '4'
  | 5 => '5'
  | 6 => '6'
  | 7 => '7'
  | 8 => '8'
  | 9 => '9'
  | _ => '*'

/-- Big-endian decimal digits of `n`, with explicit fuel (fuel `≥ n` suffices). -/
def decAux : Nat → Nat → List Char
  | 0, _ => []
  | fuel + 1, n =>
    if n = 0 then [] else decAux fuel (n / 10) ++ [decChar (n % 10)]

/-- Decimal rendering of a natural number, modelling Python's `str(n)` / `%d`. -/
def decimal (n : Nat) : String :=
  if n = 0 then "0" else ⟨decAux n n⟩

/-- Python's `%02d` format: zero-padded to at least two characters. -/
def pad2 (n : Nat) : String :=
  if n < 10 then "0" ++ decimal n else decimal n

/-- Python's `str()` of a JSON value as used inside f-strings.  Only the
string and numeric cases are exercised by any claim; container renderings are
abbreviated (no claim depends on them). -/
def pyStr : JVal → String
  | .str s => s
  | .num n => if n < 0 then "-" ++ decimal n.natAbs else decimal n.natAbs
  | .bool true => "True"
  | .bool false => "False"
  | .null => "None"
  | .arr _ => "[...]"
  | .obj _ => "\x7b...\x7d"

/-- One recorded `print` (or print block) of a run. -/
inductive LogEvent where
  | header                -- the banner printed before processing
  | fileNotFound          -- "File not found" / "Error: File ... not found"
  | readingFrom           -- "Reading from: ..."
  | readError             -- "Error reading file: ..." (root variant only)
  | parseError            -- "Invalid JSON" / "Error parsing JSON"
  | foundCount (n : Nat)  -- "Found N results" (root variant only)
  | noResults             -- "No recent results found in the JSON"
  | detected (count : Nat) (filename url : String) (payloadLen : Nat)
                          -- the "extracted screenshot" confirmation block
  | skipNav (idx : Nat) (url : String)    -- "Result i+1: Navigation to ..." (mcp)
  | skipNoData (idx : Nat)                -- "Result i+1: No screenshot data found" (mcp)
  | writeError (filename : String)        -- "Error writing <filename>" (root)
  | noScreenshotsSummary  -- "No screenshots found in the results"
  | successSummary (count : Nat)          -- "Successfully extracted N screenshots"
  | unexpectedError       -- "Unexpected error: ..." (mcp top-level handler)
deriving DecidableEq, Repr

/-- Observable outcome of a run: printed events, written files (path ↦ content,
in write order), and whether `extracted_screenshots/` was created. -/
structure RunState where
  events : List LogEvent
  files : List (String × String)
  dirCreated : Bool
deriving DecidableEq, Repr

/-- The state of the input path: absent, unreadable, unparsable, or parsed. -/
inductive InputFile where
  | missing
  | unreadable
  | invalid
  | parsed (data : JVal)

/-- Root variant, `clean_url` (lines 66-68): strip scheme, replace `/` and `:`
by `_`, truncate to 50 characters. -/
def rootCleanUrl (u : String) : String :=
  let c := strReplace (strReplace (strReplace (strReplace u "https://" "") "http://" "") "/" "_") ":" "_"
  if 50 < c.length then ⟨c.data.take 50⟩ else c

/-- Root variant, `timestamp_str` for a truthy timestamp (line 71). -/
def rootTimestampStr (ts : String) : String :=
  (strSplitOn (strReplace (strReplace ts ":" "-") "T" "_") ".").headD ""

/-- Mcp variant, `domain` (lines 69-70): strip scheme, keep the part before the
first `/`, keep only alphanumerics and `.-_`, truncate to 30 characters. -/
def mcpDomain (u : String) : String :=
  let d := (strSplitOn (strReplace (strReplace u "https://" "") "http://" "") "/").headD ""
  ⟨(d.data.filter (fun c => c.isAlphanum || c == '.' || c == '-' || c == '_')).take 30⟩

/-- Mcp variant, `time_str` (lines 62-66): `fromisoformat`/`strftime` via the
`strf` oracle, `'unknown_time'` when the bare `except` fires (non-string
timestamp or failing library call). -/
def mcpTimeStr (strf : String → Option String) : JVal → String
  | .str ts => (strf (strReplace ts "Z" "+00:00")).getD "unknown_time"
  | _ => "unknown_time"

/-- Mcp variant, the full output path of line 72:
`f"{output_dir}/screenshot_{screenshot_count:02d}_{time_str}_{domain}.txt"`. -/
def mcpFilename (count : Nat) (timeStr domain : String) : String :=
  "extracted_screenshots/screenshot_" ++ pad2 count ++ "_" ++ timeStr ++ "_" ++ domain ++ ".txt"

/-- Root variant, the write attempt (lines 70-86): builds the filename from the
already-extracted pieces, then either records the file and the confirmation
block, or (write refused by the oracle) records the per-file error message and
continues.  The counter was already incremented in both cases. -/
def rootWrite (w : String → Bool) (countNew : Nat) (tstr cleanUrl rid urlText s : String) :
    Except PyErr (List LogEvent × List (String × String) × Nat) :=
  let filename := tstr ++ "_" ++ cleanUrl ++ "_" ++ rid ++ ".txt"
  let filepath := "extracted_screenshots/" ++ filename
  if w filepath then
    .ok ([.detected countNew filename urlText s.length], [(filepath, s)], countNew)
  else
    .ok ([.writeError filename], [], countNew)

/-- Root variant, one iteration of the loop (lines 53-86).  Returns the events
printed, files written, and the updated counter; or the Python exception that
the iteration raises (the root loop has no handler around `.get` calls). -/
def rootEntryStep (w : String → Bool) (i count : Nat) (r : JVal) :
    Except PyErr (List LogEvent × List (String × String) × Nat) :=
  match r with
  | .obj _ =>
    let rid := r.getD "id" (.str ("result_" ++ decimal i))
    let urlv := r.getD "url" (.str "unknown_url")
    let tsv := r.getD "timestamp" (.str "")
    match r.getD "metadata" (.obj []) with
    | .obj mkvs =>
      let sc := JVal.getD (.obj mkvs) "screenshot" (.str "")
      if truthy sc then
        match sc with
        | .str s =>
          if strStartsWith s "data:image/" then
            match urlv with
            | .str u =>
              let cleanUrl := rootCleanUrl u
              if truthy tsv then
                match tsv with
                | .str ts =>
                  rootWrite w (count + 1) (rootTimestampStr ts) cleanUrl (pyStr rid) u s
                | _ => .error .attrErr    -- truthy non-str timestamp: `.replace` raises
              else
                rootWrite w (count + 1) ("screenshot_" ++ decimal i) cleanUrl (pyStr rid) u s
            | _ => .error .attrErr        -- non-str url: `.replace` raises
          else .ok ([], [], count)        -- no matching data-image marker: no output, NO log line
        | _ => .error .attrErr            -- truthy non-str screenshot: `.startswith` raises
      else .ok ([], [], count)            -- falsy screenshot: no output, NO log line
    | _ => .error .attrErr                -- non-dict metadata: `.get` raises
  | _ => .error .attrErr                  -- non-dict entry: `.get` raises

/-- Root variant, the loop over `recent_results` (lines 53-86), accumulating
printed events and written files.  An uncaught exception stops the loop,
keeping what was already printed/written by earlier iterations. -/
def rootLoop (w : String → Bool) :
    List JVal → Nat → Nat → List LogEvent × List (String × String) × Nat × Option PyErr
  | [], _, c => ([], [], c, none)
  | r :: rest, i, c =>
    match rootEntryStep w i c r with
    | .error e => ([], [], c, some e)
    | .ok (evs, fls, cNew) =>
      match rootLoop w rest (i + 1) cNew with
      | (evs2, fls2, c2, err) => (evs ++ evs2, fls ++ fls2, c2, err)

/-- `src/extract-screenshots.py`, `extract_screenshots` (lines 16-96).
Returns the observable state and the uncaught exception, if any: this variant
has no top-level handler around the result processing. -/
def runRoot (w : String → Bool) : InputFile → RunState × Option PyErr
  | .missing => (⟨[.header, .fileNotFound], [], false⟩, none)
  | .unreadable => (⟨[.header, .readingFrom, .readError], [], false⟩, none)
  | .invalid => (⟨[.header, .readingFrom, .parseError], [], false⟩, none)
  | .parsed data =>
    let ev0 : List LogEvent := [.header, .readingFrom]
    match dictGet data "recentResults" (.arr []) with
    | .error e => (⟨ev0, [], false⟩, some e)
    | .ok rr =>
      if truthy rr then
        match pyLen rr with
        | .error e => (⟨ev0, [], false⟩, some e)    -- `len` printed before makedirs
        | .ok n =>
          match pyIter rr with
          | .error e => (⟨ev0 ++ [.foundCount n], [], true⟩, some e)
          | .ok entries =>
            match rootLoop w entries 0 0 with
            | (evs, fls, count, err) =>
              let base := ev0 ++ [.foundCount n] ++ evs
              match err with
              | some e => (⟨base, fls, true⟩, some e)
              | none =>
                if count = 0 then (⟨base ++ [.noScreenshotsSummary], fls, true⟩, none)
                else (⟨base ++ [.successSummary count], fls, true⟩, none)
      else (⟨ev0 ++ [.noResults], [], false⟩, none)

/-- Mcp variant, the informational branch for a non-screenshot entry
(lines 84-90): distinguishes navigation results via `data.navigated`. -/
def mcpSkipStep (i count : Nat) (r : JVal) :
    Except PyErr (List LogEvent × List (String × String) × Nat) :=
  match r.getD "data" (.obj []) with
  | .obj dkvs =>
    if truthy (JVal.getD (.obj dkvs) "navigated" .null) then
      .ok ([.skipNav (i + 1) (pyStr (r.getD "url" (.str "unknown")))], [], count)
    else
      .ok ([.skipNoData (i + 1)], [], count)
  | _ => .error .attrErr                  -- non-dict `data` field: `.get` raises

/-- Mcp variant, one iteration of the loop (lines 48-90).  NOTE: the write at
lines 75-76 has no per-file handler, so a failed write raises `osErr`, to be
caught only by the top-level `except`. -/
def mcpEntryStep (strf : String → Option String) (w : String → Bool) (i count : Nat) (r : JVal) :
    Except PyErr (List LogEvent × List (String × String) × Nat) :=
  match r with
  | .obj _ =>
    match r.getD "metadata" (.obj []) with
    | .obj mkvs =>
      let sc := JVal.getD (.obj mkvs) "screenshot" (.str "")
      if truthy sc then
        match sc with
        | .str s =>
          if strStartsWith s "data:image/" then
            let urlv := r.getD "url" (.str "unknown_url")
            let tsv := r.getD "timestamp" (.str "")
            let tstr := mcpTimeStr strf tsv
            match urlv with
            | .str u =>
              let filename := mcpFilename (count + 1) tstr (mcpDomain u)
              if w filename then
                .ok ([.detected (count + 1) filename u s.length], [(filename, s)], count + 1)
              else .error .osErr
            | _ => .error .attrErr        -- non-str url: `.replace` raises
          else mcpSkipStep i count r
        | _ => .error .attrErr
      else mcpSkipStep i count r
    | _ => .error .attrErr
  | _ => .error .attrErr

/-- Mcp variant, the loop over `recent_results` (lines 48-90). -/
def mcpLoop (strf : String → Option String) (w : String → Bool) :
    List JVal → Nat → Nat → List LogEvent × List (String × String) × Nat × Option PyErr
  | [], _, c => ([], [], c, none)
  | r :: rest, i, c =>
    match mcpEntryStep strf w i c r with
    | .error e => ([], [], c, some e)
    | .ok (evs, fls, cNew) =>
      match mcpLoop strf w rest (i + 1) cNew with
      | (evs2, fls2, c2, err) => (evs ++ evs2, fls ++ fls2, c2, err)

/-- Mcp variant, shape normalisation (lines 29-36): wrapped `contents[0].text`
(re-parsed via the `loads` oracle) or the direct `recentResults` fallback. -/
def mcpNormalize (loads : String → Option JVal) (data : JVal) : Except PyErr JVal :=
  match pyIn "contents" data with
  | .error e => .error e
  | .ok hasC =>
    match (if hasC then
             match pySubscript data "contents" with
             | .error e => .error e
             | .ok c =>
               match pyLen c with
               | .error e => .error e
               | .ok n => .ok (decide (0 < n))
           else .ok false : Except PyErr Bool) with
    | .error e => .error e
    | .ok cond =>
      if cond then
        match pySubscript data "contents" with
        | .error e => .error e
        | .ok c =>
          match pyIndex c 0 with
          | .error e => .error e
          | .ok first =>
            match dictGet first "text" (.str "\x7b\x7d") with
            | .error e => .error e
            | .ok textVal =>
              match textVal with
              | .str txt =>
                match loads txt with
                | some inner => dictGet inner "recentResults" (.arr [])
                | none => .error .jsonDecode
              | _ => .error .typeErr      -- json.loads of a non-string
      else dictGet data "recentResults" (.arr [])

/-- Mcp variant, the body of the `try` block (lines 21-98) on a successfully
parsed document: returns the observable state plus the exception that escapes
the body (to be dispatched by the `except` clauses). -/
def mcpBody (loads : String → Option JVal) (strf : String → Option String)
    (w : String → Bool) (data : JVal) : RunState × Option PyErr :=
  let ev0 : List LogEvent := [.readingFrom]
  match mcpNormalize loads data with
  | .error e => (⟨ev0, [], false⟩, some e)
  | .ok rr =>
    if truthy rr then
      match pyIter rr with
      | .error e => (⟨ev0, [], true⟩, some e)       -- makedirs precedes the for-loop
      | .ok entries =>
        match mcpLoop strf w entries 0 0 with
        | (evs, fls, count, err) =>
          match err with
          | some e => (⟨ev0 ++ evs, fls, true⟩, some e)
          | none =>
            if count = 0 then (⟨ev0 ++ evs ++ [.noScreenshotsSummary], fls, true⟩, none)
            else (⟨ev0 ++ evs ++ [.successSummary count], fls, true⟩, none)
    else (⟨ev0 ++ [.noResults], [], false⟩, none)

/-- `src/examples/browser-mcp/extract-screenshots.py`, `extract_screenshots`
(lines 12-104).  The whole body sits in `try ... except json.JSONDecodeError
... except Exception`, so no exception ever escapes: the result is a plain
`RunState`. -/
def runMcp (input : InputFile) (loads : String → Option JVal)
    (strf : String → Option String) (w : String → Bool) : RunState :=
  match input with
  | .missing => ⟨[.fileNotFound], [], false⟩
  | .unreadable => ⟨[.unexpectedError], [], false⟩      -- OSError on read: generic handler
  | .invalid => ⟨[.parseError], [], false⟩              -- json.load: JSONDecodeError handler
  | .parsed data =>
    match mcpBody loads strf w data with
    | (st, none) => st
    | (st, some .jsonDecode) => ⟨st.events ++ [.parseError], st.files, st.dirCreated⟩
    | (st, some _) => ⟨st.events ++ [.unexpectedError], st.files, st.dirCreated⟩

/-! ## Spec-side accessors and predicates (derived views of the same code) -/

/-- The string carried by a JSON string value, `""` otherwise. -/
def asStr : JVal → String
  | .str s => s
  | _ => ""

/-- Is the value a JSON object? -/
def isObjB : JVal → Bool
  | .obj _ => true
  | _ => false

/-- Is the value a JSON string? -/
def isStrB : JVal → Bool
  | .str _ => true
  | _ => false

/-- The `metadata.screenshot` string of an entry, via the same defaults the
scripts use (`metadata` defaults to `{}`, `screenshot` to `""`). -/
def screenshotStrOf (r : JVal) : String :=
  asStr ((r.getD "metadata" (.obj [])).getD "screenshot" (.str ""))

/-- The `url` string of an entry (default `'unknown_url'`). -/
def urlStrOf (r : JVal) : String :=
  asStr (r.getD "url" (.str "unknown_url"))

/-- The `timestamp` string of an entry (default `''`). -/
def tsStrOf (r : JVal) : String :=
  asStr (r.getD "timestamp" (.str ""))

/-- An entry qualifies as a screenshot: truthy `metadata.screenshot` starting
with the `data:image/` marker — the filter of both variants. -/
def qualifies (r : JVal) : Bool :=
  decide (screenshotStrOf r ≠ "") && strStartsWith (screenshotStrOf r) "data:image/"

/-- A well-shaped `ResultEntry` per the spec's data model: a dict whose
`metadata` field (if present) is a dict, whose `metadata.screenshot`, `url`
and `timestamp` fields (if present) are strings, and whose `data` field (if
present) is a dict.  On such entries neither loop raises. -/
def validEntry (r : JVal) : Bool :=
  isObjB r
  && isObjB (r.getD "metadata" (.obj []))
  && isStrB ((r.getD "metadata" (.obj [])).getD "screenshot" (.str ""))
  && isStrB (r.getD "url" (.str "unknown_url"))
  && isStrB (r.getD "timestamp" (.str ""))
  && isObjB (r.getD "data" (.obj []))

/-- Is the event a per-entry detection confirmation? -/
def isDetected : LogEvent → Bool
  | .detected _ _ _ _ => true
  | _ => false

/-- Is the event a per-entry skip line? -/
def isSkip : LogEvent → Bool
  | .skipNav _ _ => true
  | .skipNoData _ => true
  | _ => false

/-- Is the event a per-file write-error report? -/
def isWriteErr : LogEvent → Bool
  | .writeError _ => true
  | _ => false

/-- Number of detection confirmations among the events. -/
def countDet (evs : List LogEvent) : Nat := evs.countP isDetected

/-- Number of per-entry skip lines among the events. -/
def countSkip (evs : List LogEvent) : Nat := evs.countP isSkip

/-- Number of per-file write-error reports among the events. -/
def countWErr (evs : List LogEvent) : Nat := evs.countP isWriteErr

/-- Is the event one of the graceful terminal messages of the error taxonomy? -/
def isTerminal : LogEvent → Bool
  | .fileNotFound => true
  | .parseError => true
  | .noResults => true
  | .noScreenshotsSummary => true
  | .successSummary _ => true
  | .unexpectedError => true
  | _ => false

/-- Root variant: the filename derived for entry `r` at loop index `i`. -/
def rootFilenameOf (i : Nat) (r : JVal) : String :=
  (if tsStrOf r ≠ "" then rootTimestampStr (tsStrOf r) else "screenshot_" ++ decimal i)
    ++ "_" ++ rootCleanUrl (urlStrOf r) ++ "_"
    ++ pyStr (r.getD "id" (.str ("result_" ++ decimal i))) ++ ".txt"

/-- Root variant: the full output path for entry `r` at loop index `i`. -/
def rootFilepathOf (i : Nat) (r : JVal) : String :=
  "extracted_screenshots/" ++ rootFilenameOf i r

/-- Root variant: the files a run writes, starting from loop index `i` — the
qualifying entries whose write the oracle accepts, in order. -/
def rootRunFiles (w : String → Bool) : List JVal → Nat → List (String × String)
  | [], _ => []
  | r :: rest, i =>
    (if qualifies r && w (rootFilepathOf i r) then [(rootFilepathOf i r, screenshotStrOf r)] else [])
      ++ rootRunFiles w rest (i + 1)

/-- Root variant: number of qualifying entries whose write succeeds. -/
def rootOkCount (w : String → Bool) : List JVal → Nat → Nat
  | [], _ => 0
  | r :: rest, i =>
    (if qualifies r && w (rootFilepathOf i r) then 1 else 0) + rootOkCount w rest (i + 1)

/-- Root variant: number of qualifying entries whose write fails. -/
def rootBadCount (w : String → Bool) : List JVal → Nat → Nat
  | [], _ => 0
  | r :: rest, i =>
    (if qualifies r && !w (rootFilepathOf i r) then 1 else 0) + rootBadCount w rest (i + 1)

/-- Mcp variant: the files a run writes when every write succeeds, starting
from loop index `i` and counter value `c`. -/
def mcpRunFiles (strf : String → Option String) : List JVal → Nat → Nat → List (String × String)
  | [], _, _ => []
  | r :: rest, i, c =>
    if qualifies r then
      (mcpFilename (c + 1) (mcpTimeStr strf (r.getD "timestamp" (.str ""))) (mcpDomain (urlStrOf r)),
        screenshotStrOf r) :: mcpRunFiles strf rest (i + 1) (c + 1)
    else mcpRunFiles strf rest (i + 1) c

/-! ## Decimal rendering: recovery of the value, digit shape -/

/-- Parse a big-endian digit string back to a number (left fold). -/
def digitsVal (l : List Char) : Nat :=
  l.foldl (fun a c => a * 10 + (c.toNat - 48)) 0

/-- Recover the mcp counter embedded in an output filename: the characters
after the `screenshot_` marker up to the following `_`, read as a number. -/
def fileCounter (s : String) : Nat :=
  digitsVal ((s.data.drop ("extracted_screenshots/screenshot_").data.length).takeWhile
    (fun c => c ≠ '_'))

theorem decChar_ne_underscore (d : Nat) : decChar d ≠ '_' := by
  unfold decChar
  split <;> decide

theorem decChar_toNat (d : Nat) (h : d < 10) : (decChar d).toNat - 48 = d := by
  interval_cases d <;> decide

theorem decAux_zero (fuel : Nat) : decAux fuel 0 = [] := by
  cases fuel <;> simp [decAux]

theorem mem_decAux_ne_underscore (fuel n : Nat) (c : Char) (hc : c ∈ decAux fuel n) :
    c ≠ '_' := by
  induction fuel generalizing n with
  | zero => simp [decAux] at hc
  | succ f ih =>
    simp only [decAux] at hc
    by_cases h0 : n = 0
    · simp [h0] at hc
    · simp only [h0, if_false, List.mem_append, List.mem_singleton] at hc
      rcases hc with h | h
      · exact ih _ h
      · rw [h]; exact decChar_ne_underscore _

theorem mem_decimal_ne_underscore (n : Nat) (c : Char) (hc : c ∈ (decimal n).data) :
    c ≠ '_' := by
  unfold decimal at hc
  by_cases h0 : n = 0
  · simp [h0] at hc
    rw [hc]; decide
  · simp only [h0, if_false] at hc
    exact mem_decAux_ne_underscore n n c hc

theorem digitsVal_append_singleton (l : List Char) (c : Char) :
    digitsVal (l ++ [c]) = digitsVal l * 10 + (c.toNat - 48) := by
  simp [digitsVal, List.foldl_append]

theorem digitsVal_decAux (fuel n : Nat) (h : n ≤ fuel) : digitsVal (decAux fuel n) = n := by
  induction fuel generalizing n with
  | zero =>
    interval_cases n
    simp [decAux, digitsVal]
  | succ f ih =>
    by_cases h0 : n = 0
    · simp [h0, decAux, digitsVal]
    · have hrec : n / 10 ≤ f := by
        have : n / 10 < n := Nat.div_lt_self (Nat.pos_of_ne_zero h0) (by norm_num)
        omega
      simp only [decAux, h0, if_false]
      rw [digitsVal_append_singleton, ih _ hrec, decChar_toNat _ (Nat.mod_lt _ (by norm_num))]
      omega

theorem digitsVal_decimal (n : Nat) : digitsVal (decimal n).data = n := by
  unfold decimal
  by_cases h0 : n = 0
  · simp [h0, digitsVal]
  · simp only [h0, if_false]
    exact digitsVal_decAux n n (le_refl n)

theorem digitsVal_pad2 (n : Nat) : digitsVal (pad2 n).data = n := by
  unfold pad2
  by_cases h : n < 10
  · simp only [h, if_true, String.data_append]
    show digitsVal ('0' :: (decimal n).data) = n
    have : digitsVal ('0' :: (decimal n).data) = digitsVal (decimal n).data := by
      simp [digitsVal]
    rw [this, digitsVal_decimal]
  · simp only [h, if_false]
    exact digitsVal_decimal n

theorem mem_pad2_ne_underscore (n : Nat) (c : Char) (hc : c ∈ (pad2 n).data) : c ≠ '_' := by
  unfold pad2 at hc
  by_cases h : n < 10
  · simp only [h, if_true, String.data_append] at hc
    rcases List.mem_append.mp hc with h1 | h1
    · rw [List.mem_singleton.mp h1]; decide
    · exact mem_decimal_ne_underscore n c h1
  · simp only [h, if_false] at hc
    exact mem_decimal_ne_underscore n c hc

theorem takeWhile_append_cons (p : Char → Bool) (a : List Char) (x : Char) (b : List Char)
    (ha : ∀ c ∈ a, p c) (hx : ¬ p x) : (a ++ x :: b).takeWhile p = a := by
  induction a with
  | nil => simp [List.takeWhile, hx]
  | cons y ys ih =>
    have hy : p y := ha y (by simp)
    simp only [List.cons_append, List.takeWhile_cons, hy, if_true]
    rw [ih (fun c hc => ha c (by simp [hc]))]

/-- The counter is recoverable from an mcp filename, whatever the time and
domain components are. -/
theorem fileCounter_mcpFilename (c : Nat) (t d : String) :
    fileCounter (mcpFilename c t d) = c := by
  unfold fileCounter mcpFilename
  simp only [String.data_append, List.append_assoc, List.singleton_append]
  rw [List.drop_left]
  simp only [List.cons_append]
  have htw : ((pad2 c).data ++ '_' :: (t.data ++ '_' :: (d.data ++ ['.', 't', 'x', 't']))).takeWhile
      (fun ch => decide (ch ≠ '_')) = (pad2 c).data :=
    takeWhile_append_cons (fun ch => decide (ch ≠ '_')) (pad2 c).data '_' _
      (fun ch hch => by simpa using mem_pad2_ne_underscore c ch hch) (by simp)
  rw [htw]
  exact digitsVal_pad2 c

/-! ## Step characterisation on well-shaped entries -/

theorem isObjB_iff (v : JVal) : isObjB v = true ↔ ∃ kvs, v = .obj kvs := by
  cases v <;> simp [isObjB]

theorem isStrB_iff (v : JVal) : isStrB v = true ↔ ∃ s, v = .str s := by
  cases v <;> simp [isStrB]

theorem truthy_str (s : String) : truthy (.str s) = decide (s ≠ "") := rfl

/-- On a well-shaped entry the root loop body never raises, writes the file
exactly when the entry qualifies and the oracle accepts the write, reports the
per-file error when the write is refused, and prints nothing otherwise. -/
theorem rootEntryStep_valid (w : String → Bool) (i c : Nat) (r : JVal)
    (hv : validEntry r = true) :
    rootEntryStep w i c r = .ok
      (if qualifies r then
        (if w (rootFilepathOf i r) then
           ([.detected (c + 1) (rootFilenameOf i r) (urlStrOf r) (screenshotStrOf r).length],
            [(rootFilepathOf i r, screenshotStrOf r)], c + 1)
         else ([.writeError (rootFilenameOf i r)], [], c + 1))
       else ([], [], c)) := by
  simp only [validEntry, Bool.and_eq_true] at hv
  obtain ⟨⟨⟨⟨⟨h1, h2⟩, h3⟩, h4⟩, h5⟩, h6⟩ := hv
  obtain ⟨kvs, rfl⟩ := (isObjB_iff _).mp h1
  obtain ⟨mkvs, hm⟩ := (isObjB_iff _).mp h2
  rw [hm] at h3
  obtain ⟨s, hs⟩ := (isStrB_iff _).mp h3
  obtain ⟨u, hu⟩ := (isStrB_iff _).mp h4
  obtain ⟨ts, ht⟩ := (isStrB_iff _).mp h5
  have hss : screenshotStrOf (.obj kvs) = s := by
    simp [screenshotStrOf, hm, hs, asStr]
  have huu : urlStrOf (.obj kvs) = u := by
    simp [urlStrOf, hu, asStr]
  have htt : tsStrOf (.obj kvs) = ts := by
    simp [tsStrOf, ht, asStr]
  simp only [rootEntryStep, hm, hs, hu, ht, truthy_str]
  by_cases hse : s = ""
  · have hq : qualifies (.obj kvs) = false := by
      simp [qualifies, hss, hse]
    simp [hse, hq]
  · by_cases hpre : strStartsWith s "data:image/"
    · have hq : qualifies (.obj kvs) = true := by
        simp [qualifies, hss, hse, hpre]
      by_cases hts : ts = ""
      · simp [hse, hpre, hq, hts, rootWrite, rootFilenameOf, rootFilepathOf, hss, huu, htt]
        split <;> rfl
      · simp [hse, hpre, hq, hts, rootWrite, rootFilenameOf, rootFilepathOf, hss, huu, htt]
        split <;> rfl
    · have hq : qualifies (.obj kvs) = false := by
        simp [qualifies, hss, hpre]
      simp [hse, hpre, hq]

theorem countDet_cons (e : LogEvent) (l : List LogEvent) :
    countDet (e :: l) = countDet l + (if isDetected e then 1 else 0) := by
  simp [countDet, List.countP_cons]

theorem countSkip_cons (e : LogEvent) (l : List LogEvent) :
    countSkip (e :: l) = countSkip l + (if isSkip e then 1 else 0) := by
  simp [countSkip, List.countP_cons]

theorem countWErr_cons (e : LogEvent) (l : List LogEvent) :
    countWErr (e :: l) = countWErr l + (if isWriteErr e then 1 else 0) := by
  simp [countWErr, List.countP_cons]

/-- Master characterisation of the root loop on well-shaped entries: it never
raises, counts every qualifying entry (whether or not its write succeeds),
writes exactly the oracle-accepted qualifying entries, reports a write error
for each refused one, and emits no per-entry skip line at all. -/
theorem rootLoop_master (w : String → Bool) (entries : List JVal) (i c : Nat)
    (h : ∀ r ∈ entries, validEntry r = true) :
    ∃ evs, rootLoop w entries i c =
        (evs, rootRunFiles w entries i, c + entries.countP qualifies, none)
      ∧ countDet evs = rootOkCount w entries i
      ∧ countWErr evs = rootBadCount w entries i
      ∧ countSkip evs = 0 := by
  induction entries generalizing i c with
  | nil =>
    exact ⟨[], by simp [rootLoop, rootRunFiles, rootOkCount, rootBadCount,
      countDet, countWErr, countSkip]⟩
  | cons r rest ih =>
    have hr : validEntry r = true := h r (by simp)
    have hrest : ∀ x ∈ rest, validEntry x = true := fun x hx => h x (by simp [hx])
    by_cases hq : qualifies r = true
    · by_cases hw : w (rootFilepathOf i r) = true
      · obtain ⟨evs2, heq, hd, hwe, hsk⟩ := ih (i + 1) (c + 1) hrest
        refine ⟨.detected (c + 1) (rootFilenameOf i r) (urlStrOf r) (screenshotStrOf r).length
          :: evs2, ?_, ?_, ?_, ?_⟩
        · simp only [rootLoop, rootEntryStep_valid w i c r hr, hq, hw, if_true, heq]
          simp [rootRunFiles, hq, hw, List.countP_cons]
          omega
        · rw [countDet_cons, hd]
          simp [rootOkCount, hq, hw, isDetected]
          omega
        · rw [countWErr_cons, hwe]
          simp [rootBadCount, hq, hw, isWriteErr]
        · rw [countSkip_cons, hsk]
          simp [isSkip]
      · obtain ⟨evs2, heq, hd, hwe, hsk⟩ := ih (i + 1) (c + 1) hrest
        refine ⟨.writeError (rootFilenameOf i r) :: evs2, ?_, ?_, ?_, ?_⟩
        · simp only [rootLoop, rootEntryStep_valid w i c r hr, hq, hw, if_true, if_false, heq]
          simp [rootRunFiles, hq, hw, List.countP_cons, heq]
          omega
        · rw [countDet_cons, hd]
          simp [rootOkCount, hq, hw, isDetected]
        · rw [countWErr_cons, hwe]
          simp [rootBadCount, hq, hw, isWriteErr]
          omega
        · rw [countSkip_cons, hsk]
          simp [isSkip]
    · obtain ⟨evs2, heq, hd, hwe, hsk⟩ := ih (i + 1) c hrest
      refine ⟨evs2, ?_, ?_, ?_, ?_⟩
      · simp only [rootLoop, rootEntryStep_valid w i c r hr, hq, if_false, heq]
        simp [rootRunFiles, hq, List.countP_cons, heq]
      · simpa [rootOkCount, hq] using hd
      · simpa [rootBadCount, hq] using hwe
      · exact hsk

/-- The informational line the mcp variant prints for a non-screenshot entry. -/
def mcpSkipEvents (i : Nat) (r : JVal) : List LogEvent :=
  if truthy ((r.getD "data" (.obj [])).getD "navigated" .null) then
    [.skipNav (i + 1) (pyStr (r.getD "url" (.str "unknown")))]
  else [.skipNoData (i + 1)]

/-- On a well-shaped entry, when every write succeeds, the mcp loop body never
raises: a qualifying entry yields its file and confirmation block, any other
entry yields exactly one informational skip line and no file. -/
theorem mcpEntryStep_valid (strf : String → Option String) (w : String → Bool)
    (i c : Nat) (r : JVal) (hv : validEntry r = true) (hw : ∀ p, w p = true) :
    mcpEntryStep strf w i c r = .ok
      (if qualifies r then
         ([.detected (c + 1)
             (mcpFilename (c + 1) (mcpTimeStr strf (r.getD "timestamp" (.str "")))
               (mcpDomain (urlStrOf r))) (urlStrOf r) (screenshotStrOf r).length],
          [(mcpFilename (c + 1) (mcpTimeStr strf (r.getD "timestamp" (.str "")))
              (mcpDomain (urlStrOf r)), screenshotStrOf r)], c + 1)
       else (mcpSkipEvents i r, [], c)) := by
  simp only [validEntry, Bool.and_eq_true] at hv
  obtain ⟨⟨⟨⟨⟨h1, h2⟩, h3⟩, h4⟩, h5⟩, h6⟩ := hv
  obtain ⟨kvs, rfl⟩ := (isObjB_iff _).mp h1
  obtain ⟨mkvs, hm⟩ := (isObjB_iff _).mp h2
  rw [hm] at h3
  obtain ⟨s, hs⟩ := (isStrB_iff _).mp h3
  obtain ⟨u, hu⟩ := (isStrB_iff _).mp h4
  obtain ⟨dkvs, hdd⟩ := (isObjB_iff _).mp h6
  have hss : screenshotStrOf (.obj kvs) = s := by
    simp [screenshotStrOf, hm, hs, asStr]
  have huu : urlStrOf (.obj kvs) = u := by
    simp [urlStrOf, hu, asStr]
  have hskip : mcpSkipStep i c (.obj kvs) = .ok (mcpSkipEvents i (.obj kvs), [], c) := by
    simp only [mcpSkipStep, hdd, mcpSkipEvents]
    split <;> rfl
  simp only [mcpEntryStep, hm, hs, hu, truthy_str]
  by_cases hse : s = ""
  · have hq : qualifies (.obj kvs) = false := by
      simp [qualifies, hss, hse]
    simp [hse, hq, hskip]
  · by_cases hpre : strStartsWith s "data:image/"
    · have hq : qualifies (.obj kvs) = true := by
        simp [qualifies, hss, hse, hpre]
      simp [hse, hpre, hq, hw, hss, huu, hu]
    · have hq : qualifies (.obj kvs) = false := by
        simp [qualifies, hss, hpre]
      simp [hse, hpre, hq, hskip]

/-- Master characterisation of the mcp loop on well-shaped entries with all
writes succeeding: it never raises, writes one file per qualifying entry,
prints one confirmation block per qualifying entry and exactly one skip line
per non-qualifying entry, and reports no write error. -/
theorem mcpLoop_master (strf : String → Option String) (w : String → Bool)
    (entries : List JVal) (i c : Nat)
    (h : ∀ r ∈ entries, validEntry r = true) (hw : ∀ p, w p = true) :
    ∃ evs, mcpLoop strf w entries i c =
        (evs, mcpRunFiles strf entries i c, c + entries.countP qualifies, none)
      ∧ countDet evs = entries.countP qualifies
      ∧ countSkip evs = entries.length - entries.countP qualifies
      ∧ countWErr evs = 0 := by
  induction entries generalizing i c with
  | nil =>
    exact ⟨[], by simp [mcpLoop, mcpRunFiles, countDet, countWErr, countSkip]⟩
  | cons r rest ih =>
    have hr : validEntry r = true := h r (by simp)
    have hrest : ∀ x ∈ rest, validEntry x = true := fun x hx => h x (by simp [hx])
    have hKle : rest.countP qualifies ≤ rest.length := List.countP_le_length _
    by_cases hq : qualifies r = true
    · obtain ⟨evs2, heq, hd, hsk, hwe⟩ := ih (i + 1) (c + 1) hrest
      refine ⟨.detected (c + 1)
          (mcpFilename (c + 1) (mcpTimeStr strf (r.getD "timestamp" (.str "")))
            (mcpDomain (urlStrOf r))) (urlStrOf r) (screenshotStrOf r).length :: evs2,
        ?_, ?_, ?_, ?_⟩
      · simp only [mcpLoop, mcpEntryStep_valid strf w i c r hr hw, hq, if_true, heq]
        simp [mcpRunFiles, hq, List.countP_cons, heq]
        omega
      · rw [countDet_cons, hd]
        simp [List.countP_cons, hq, isDetected]
      · rw [countSkip_cons, hsk]
        simp [List.countP_cons, hq, isSkip]
      · rw [countWErr_cons, hwe]
        simp [isWriteErr]
    · obtain ⟨evs2, heq, hd, hsk, hwe⟩ := ih (i + 1) c hrest
      have hone : ∃ e, mcpSkipEvents i r = [e] ∧ isSkip e = true
          ∧ isDetected e = false ∧ isWriteErr e = false := by
        unfold mcpSkipEvents
        split
        · exact ⟨_, rfl, rfl, rfl, rfl⟩
        · exact ⟨_, rfl, rfl, rfl, rfl⟩
      obtain ⟨e, he, hes, hed, hew⟩ := hone
      refine ⟨e :: evs2, ?_, ?_, ?_, ?_⟩
      · simp only [mcpLoop, mcpEntryStep_valid strf w i c r hr hw, hq, if_false, heq, he]
        simp [mcpRunFiles, hq, List.countP_cons, heq]
      · rw [countDet_cons, hd]
        simp [List.countP_cons, hq, hed]
      · rw [countSkip_cons, hsk]
        simp [List.countP_cons, hq, hes]
        omega
      · rw [countWErr_cons, hwe]
        simp [hew]

/-! ## Properties of the spec-side file lists -/

theorem mcpRunFiles_length (strf : String → Option String) (entries : List JVal) (i c : Nat) :
    (mcpRunFiles strf entries i c).length = entries.countP qualifies := by
  induction entries generalizing i c with
  | nil => simp [mcpRunFiles]
  | cons r rest ih =>
    by_cases hq : qualifies r = true <;>
      simp [mcpRunFiles, hq, List.countP_cons, ih]

theorem mcpRunFiles_map_snd (strf : String → Option String) (entries : List JVal) (i c : Nat) :
    (mcpRunFiles strf entries i c).map Prod.snd
      = (entries.filter qualifies).map screenshotStrOf := by
  induction entries generalizing i c with
  | nil => simp [mcpRunFiles]
  | cons r rest ih =>
    by_cases hq : qualifies r = true <;>
      simp [mcpRunFiles, hq, List.filter_cons, ih]

theorem mcpRunFiles_counters (strf : String → Option String) (entries : List JVal) (i c : Nat) :
    (mcpRunFiles strf entries i c).map (fun f => fileCounter f.1)
      = List.range' (c + 1) (entries.countP qualifies) := by
  induction entries generalizing i c with
  | nil => simp [mcpRunFiles]
  | cons r rest ih =>
    by_cases hq : qualifies r = true
    · simp only [mcpRunFiles, hq, if_true, List.map_cons, fileCounter_mcpFilename,
        List.countP_cons, ih]
      simp [hq, List.range'_succ]
    · simp [mcpRunFiles, hq, List.countP_cons, ih]

theorem rootRunFiles_map_snd (entries : List JVal) (i : Nat) :
    (rootRunFiles (fun _ => true) entries i).map Prod.snd
      = (entries.filter qualifies).map screenshotStrOf := by
  induction entries generalizing i with
  | nil => simp [rootRunFiles]
  | cons r rest ih =>
    by_cases hq : qualifies r = true <;>
      simp [rootRunFiles, hq, List.filter_cons, ih]

/-- Any qualifying entry whose own write the oracle accepts is written, no
matter what happens to the writes of the other entries. -/
theorem rootRunFiles_mem (w : String → Bool) (entries : List JVal) (i j : Nat) (r : JVal)
    (hj : entries.get? j = some r) (hq : qualifies r = true)
    (hw : w (rootFilepathOf (i + j) r) = true) :
    (rootFilepathOf (i + j) r, screenshotStrOf r) ∈ rootRunFiles w entries i := by
  induction entries generalizing i j with
  | nil => simp at hj
  | cons x rest ih =>
    cases j with
    | zero =>
      simp only [List.get?_cons_zero, Option.some.injEq] at hj
      subst hj
      simp only [Nat.add_zero] at hw ⊢
      simp [rootRunFiles, hq, hw]
    | succ j =>
      simp only [List.get?_cons_succ] at hj
      have hadd : i + (j + 1) = i + 1 + j := by omega
      rw [hadd] at hw ⊢
      simp only [rootRunFiles]
      exact List.mem_append_right _ (ih (i + 1) j hj hw)

/-! ## Run-level characterisation on Direct-shape documents -/

theorem countDet_append (a b : List LogEvent) :
    countDet (a ++ b) = countDet a + countDet b := by
  simp [countDet, List.countP_append]

theorem countSkip_append (a b : List LogEvent) :
    countSkip (a ++ b) = countSkip a + countSkip b := by
  simp [countSkip, List.countP_append]

theorem countWErr_append (a b : List LogEvent) :
    countWErr (a ++ b) = countWErr a + countWErr b := by
  simp [countWErr, List.countP_append]

/-- On a Direct-shape document the mcp normaliser just reads `recentResults`. -/
theorem mcpNormalize_direct (loads : String → Option JVal) (kvs : List (String × JVal))
    (hC : lookupKey kvs "contents" = none) :
    mcpNormalize loads (.obj kvs)
      = .ok ((lookupKey kvs "recentResults").getD (.arr [])) := by
  simp [mcpNormalize, pyIn, hC, dictGet, JVal.getD]

/-- Full mcp run on a Direct-shape document of well-shaped entries, all writes
succeeding: the files are `mcpRunFiles`, the directory is created iff the
entry list is non-empty, and the per-entry line counts are exact. -/
theorem runMcp_direct_master (loads : String → Option JVal) (strf : String → Option String)
    (kvs : List (String × JVal)) (entries : List JVal)
    (hC : lookupKey kvs "contents" = none)
    (hR : lookupKey kvs "recentResults" = some (.arr entries))
    (h : ∀ r ∈ entries, validEntry r = true) :
    ∃ evs, runMcp (.parsed (.obj kvs)) loads strf (fun _ => true)
        = ⟨evs, mcpRunFiles strf entries 0 0, !entries.isEmpty⟩
      ∧ countDet evs = entries.countP qualifies
      ∧ countSkip evs = entries.length - entries.countP qualifies
      ∧ countWErr evs = 0 := by
  have hnorm : mcpNormalize loads (.obj kvs) = .ok (.arr entries) := by
    rw [mcpNormalize_direct loads kvs hC, hR]
    rfl
  cases entries with
  | nil =>
    refine ⟨[.readingFrom, .noResults], ?_, rfl, rfl, rfl⟩
    simp [runMcp, mcpBody, hnorm, truthy, mcpRunFiles]
  | cons r rest =>
    obtain ⟨evs, heq, hd, hsk, hwe⟩ :=
      mcpLoop_master strf (fun _ => true) (r :: rest) 0 0 h (fun _ => rfl)
    have e1 : countDet [LogEvent.readingFrom] = 0 := rfl
    have e2 : countSkip [LogEvent.readingFrom] = 0 := rfl
    have e3 : countWErr [LogEvent.readingFrom] = 0 := rfl
    by_cases hc0 : (r :: rest).countP qualifies = 0
    · refine ⟨[.readingFrom] ++ evs ++ [.noScreenshotsSummary], ?_, ?_, ?_, ?_⟩
      · simp [runMcp, mcpBody, hnorm, truthy, pyIter, heq, hc0]
      · rw [countDet_append, countDet_append, hd, e1]
        have : countDet [LogEvent.noScreenshotsSummary] = 0 := rfl
        rw [this]
        omega
      · rw [countSkip_append, countSkip_append, hsk, e2]
        have : countSkip [LogEvent.noScreenshotsSummary] = 0 := rfl
        rw [this]
        omega
      · rw [countWErr_append, countWErr_append, hwe, e3]
        have : countWErr [LogEvent.noScreenshotsSummary] = 0 := rfl
        rw [this]
    · refine ⟨[.readingFrom] ++ evs ++ [.successSummary ((r :: rest).countP qualifies)],
        ?_, ?_, ?_, ?_⟩
      · simp [runMcp, mcpBody, hnorm, truthy, pyIter, heq, hc0]
      · rw [countDet_append, countDet_append, hd, e1]
        have : countDet [LogEvent.successSummary ((r :: rest).countP qualifies)] = 0 := rfl
        rw [this]
        omega
      · rw [countSkip_append, countSkip_append, hsk, e2]
        have : countSkip [LogEvent.successSummary ((r :: rest).countP qualifies)] = 0 := rfl
        rw [this]
        omega
      · rw [countWErr_append, countWErr_append, hwe, e3]
        have : countWErr [LogEvent.successSummary ((r :: rest).countP qualifies)] = 0 := rfl
        rw [this]

/-- Full root run on a Direct-shape document of well-shaped entries, with an
arbitrary write oracle: no exception escapes, the files are `rootRunFiles`
(every accepted qualifying write, also after a refused one), each refused
write is reported, and no per-entry skip line exists. -/
theorem runRoot_direct_master (w : String → Bool)
    (kvs : List (String × JVal)) (entries : List JVal)
    (hR : lookupKey kvs "recentResults" = some (.arr entries))
    (h : ∀ r ∈ entries, validEntry r = true) :
    ∃ evs, runRoot w (.parsed (.obj kvs))
        = (⟨evs, rootRunFiles w entries 0, !entries.isEmpty⟩, none)
      ∧ countDet evs = rootOkCount w entries 0
      ∧ countWErr evs = rootBadCount w entries 0
      ∧ countSkip evs = 0 := by
  have hget : dictGet (.obj kvs) "recentResults" (.arr []) = .ok (.arr entries) := by
    simp [dictGet, hR]
  cases entries with
  | nil =>
    refine ⟨[.header, .readingFrom, .noResults], ?_, rfl, rfl, rfl⟩
    simp [runRoot, hget, truthy, rootRunFiles, rootOkCount, rootBadCount]
  | cons r rest =>
    obtain ⟨evs, heq, hd, hwe, hsk⟩ := rootLoop_master w (r :: rest) 0 0 h
    have e1 : countDet [LogEvent.header, LogEvent.readingFrom,
      LogEvent.foundCount (r :: rest).length] = 0 := rfl
    have e2 : countWErr [LogEvent.header, LogEvent.readingFrom,
      LogEvent.foundCount (r :: rest).length] = 0 := rfl
    have e3 : countSkip [LogEvent.header, LogEvent.readingFrom,
      LogEvent.foundCount (r :: rest).length] = 0 := rfl
    by_cases hc0 : (r :: rest).countP qualifies = 0
    · refine ⟨[.header, .readingFrom, .foundCount (r :: rest).length] ++ evs
          ++ [.noScreenshotsSummary], ?_, ?_, ?_, ?_⟩
      · simp [runRoot, hget, truthy, pyLen, pyIter, heq, hc0]
      · rw [countDet_append, countDet_append, hd, e1]
        have : countDet [LogEvent.noScreenshotsSummary] = 0 := rfl
        rw [this]
        omega
      · rw [countWErr_append, countWErr_append, hwe, e2]
        have : countWErr [LogEvent.noScreenshotsSummary] = 0 := rfl
        rw [this]
        omega
      · rw [countSkip_append, countSkip_append, hsk, e3]
        have : countSkip [LogEvent.noScreenshotsSummary] = 0 := rfl
        rw [this]
    · refine ⟨[.header, .readingFrom, .foundCount (r :: rest).length] ++ evs
          ++ [.successSummary ((r :: rest).countP qualifies)], ?_, ?_, ?_, ?_⟩
      · simp [runRoot, hget, truthy, pyLen, pyIter, heq, hc0]
      · rw [countDet_append, countDet_append, hd, e1]
        have : countDet [LogEvent.successSummary ((r :: rest).countP qualifies)] = 0 := rfl
        rw [this]
        omega
      · rw [countWErr_append, countWErr_append, hwe, e2]
        have : countWErr [LogEvent.successSummary ((r :: rest).countP qualifies)] = 0 := rfl
        rw [this]
        omega
      · rw [countSkip_append, countSkip_append, hsk, e3]
        have : countSkip [LogEvent.successSummary ((r :: rest).countP qualifies)] = 0 := rfl
        rw [this]

/-- On a well-shaped entry that does not qualify, the mcp loop body takes the
informational branch regardless of the write oracle. -/
theorem mcpEntryStep_skip (strf : String → Option String) (w : String → Bool)
    (i c : Nat) (r : JVal) (hv : validEntry r = true) (hq : qualifies r = false) :
    mcpEntryStep strf w i c r = .ok (mcpSkipEvents i r, [], c) := by
  simp only [validEntry, Bool.and_eq_true] at hv
  obtain ⟨⟨⟨⟨⟨h1, h2⟩, h3⟩, h4⟩, h5⟩, h6⟩ := hv
  obtain ⟨kvs, rfl⟩ := (isObjB_iff _).mp h1
  obtain ⟨mkvs, hm⟩ := (isObjB_iff _).mp h2
  rw [hm] at h3
  obtain ⟨s, hs⟩ := (isStrB_iff _).mp h3
  obtain ⟨u, hu⟩ := (isStrB_iff _).mp h4
  obtain ⟨dkvs, hdd⟩ := (isObjB_iff _).mp h6
  have hss : screenshotStrOf (.obj kvs) = s := by
    simp [screenshotStrOf, hm, hs, asStr]
  have hskip : mcpSkipStep i c (.obj kvs) = .ok (mcpSkipEvents i (.obj kvs), [], c) := by
    simp only [mcpSkipStep, hdd, mcpSkipEvents]
    split <;> rfl
  simp only [mcpEntryStep, hm, hs, hu, truthy_str]
  by_cases hse : s = ""
  · simp [hse, hskip]
  · have hpre : strStartsWith s "data:image/" = false := by
      simp [qualifies, hss, hse] at hq
      exact hq
    simp [hse, hpre, hskip]

/-- C5: an entry whose `metadata.screenshot` does not begin exactly with
`data:image/` (for example `"data:imagexpng..."`) is skipped by both variants:
the loop body writes no file and leaves the counter unchanged — the screenshot
test is an exact `startswith` check, not a substring match. -/
theorem nonmatching_screenshot_writes_no_file (strf : String → Option String)
    (w : String → Bool) (i c : Nat) (r : JVal) (s : String)
    (hv : validEntry r = true) (hsc : screenshotStrOf r = s)
    (hpre : strStartsWith s "data:image/" = false) :
    rootEntryStep w i c r = .ok ([], [], c)
    ∧ mcpEntryStep strf w i c r = .ok (mcpSkipEvents i r, [], c) := by
  have hq : qualifies r = false := by
    simp [qualifies, hsc, hpre]
  refine ⟨?_, mcpEntryStep_skip strf w i c r hv hq⟩
  rw [rootEntryStep_valid w i c r hv, hq]
  simp

/-- The claim's own example entry: the value contains `data:image` but not the
exact `data:image/` marker. -/
def nearMissEntry : JVal :=
  .obj [("metadata", .obj [("screenshot", .str "data:imagexpng;base64,AAAA")])]

/-- Witness for C5 at the spec's example `"data:imagexpng..."`. -/
theorem nonmatching_screenshot_writes_no_file_witness :
    rootEntryStep (fun _ => true) 0 0 nearMissEntry = .ok ([], [], 0)
    ∧ mcpEntryStep (fun _ => none) (fun _ => true) 0 0 nearMissEntry
        = .ok (mcpSkipEvents 0 nearMissEntry, [], 0) :=
  nonmatching_screenshot_writes_no_file (fun _ => none) (fun _ => true) 0 0 nearMissEntry
    "data:imagexpng;base64,AAAA" (by decide) (by decide) (by decide)

/-- C7: on a missing input path both variants report the error, return without
any exception, write no file, and never create the output directory. -/
theorem missing_input_graceful (w : String → Bool) (loads : String → Option JVal)
    (strf : String → Option String) :
    runRoot w .missing = (⟨[.header, .fileNotFound], [], false⟩, none)
    ∧ runMcp .missing loads strf w = ⟨[.fileNotFound], [], false⟩ :=
  ⟨rfl, rfl⟩

/-- C8: an absent or empty `recentResults` sequence in a Direct-shape document
yields the no-results report, zero files, no directory, and a graceful end in
both variants. -/
theorem empty_results_graceful (w : String → Bool) (loads : String → Option JVal)
    (strf : String → Option String) (kvs : List (String × JVal))
    (hC : lookupKey kvs "contents" = none)
    (hR : lookupKey kvs "recentResults" = none
        ∨ lookupKey kvs "recentResults" = some (.arr [])) :
    runRoot w (.parsed (.obj kvs)) = (⟨[.header, .readingFrom, .noResults], [], false⟩, none)
    ∧ runMcp (.parsed (.obj kvs)) loads strf w = ⟨[.readingFrom, .noResults], [], false⟩ := by
  have hrr : (lookupKey kvs "recentResults").getD (.arr []) = .arr [] := by
    rcases hR with h | h <;> simp [h]
  constructor
  · simp [runRoot, dictGet, hrr, truthy]
  · have hnorm := mcpNormalize_direct loads kvs hC
    rw [hrr] at hnorm
    simp [runMcp, mcpBody, hnorm, truthy]

/-- Witness for C8 on `{"recentResults": []}`. -/
theorem empty_results_graceful_witness :
    runRoot (fun _ => true) (.parsed (.obj [("recentResults", .arr [])]))
      = (⟨[.header, .readingFrom, .noResults], [], false⟩, none)
    ∧ runMcp (.parsed (.obj [("recentResults", .arr [])])) (fun _ => none) (fun _ => none)
        (fun _ => true) = ⟨[.readingFrom, .noResults], [], false⟩ :=
  empty_results_graceful (fun _ => true) (fun _ => none) (fun _ => none)
    [("recentResults", .arr [])] rfl (Or.inr rfl)

/-- The top-level handlers of the mcp variant report errors but never change
which files were written or whether the directory was created. -/
theorem runMcp_dirCreated (loads : String → Option JVal) (strf : String → Option String)
    (w : String → Bool) (data : JVal) :
    (runMcp (.parsed data) loads strf w).dirCreated
      = (mcpBody loads strf w data).1.dirCreated := by
  simp only [runMcp]
  rcases mcpBody loads strf w data with ⟨st, err⟩
  cases err with
  | none => rfl
  | some e => cases e <;> rfl

/-- C10: as soon as the `recentResults` sequence is non-empty, both variants
create `extracted_screenshots` before looking at any entry, so the directory
exists after the run even if no entry qualifies (and even if the loop raises). -/
theorem nonempty_results_creates_dir (w : String → Bool) (loads : String → Option JVal)
    (strf : String → Option String) (kvs : List (String × JVal)) (r : JVal) (rest : List JVal)
    (hC : lookupKey kvs "contents" = none)
    (hR : lookupKey kvs "recentResults" = some (.arr (r :: rest))) :
    (runRoot w (.parsed (.obj kvs))).1.dirCreated = true
    ∧ (runMcp (.parsed (.obj kvs)) loads strf w).dirCreated = true := by
  have hnorm : mcpNormalize loads (.obj kvs) = .ok (.arr (r :: rest)) := by
    rw [mcpNormalize_direct loads kvs hC, hR]
    rfl
  have hget : dictGet (.obj kvs) "recentResults" (.arr []) = .ok (.arr (r :: rest)) := by
    simp [dictGet, hR]
  constructor
  · simp only [runRoot, hget]
    simp only [truthy, pyLen, pyIter, List.isEmpty_cons, Bool.not_false, if_true]
    split <;> first | rfl | (split <;> rfl)
  · rw [runMcp_dirCreated]
    simp only [mcpBody, hnorm]
    simp only [truthy, pyIter, List.isEmpty_cons, Bool.not_false, if_true]
    rcases mcpLoop strf w (r :: rest) 0 0 with ⟨evs, fls, count, err⟩
    dsimp only
    cases err with
    | none => split <;> first | rfl | (split <;> rfl)
    | some e => rfl

/-- Witness for C10 on a one-entry document whose entry has no screenshot. -/
theorem nonempty_results_creates_dir_witness :
    (runRoot (fun _ => true) (.parsed (.obj [("recentResults", .arr [.obj []])]))).1.dirCreated
      = true
    ∧ (runMcp (.parsed (.obj [("recentResults", .arr [.obj []])])) (fun _ => none)
        (fun _ => none) (fun _ => true)).dirCreated = true :=
  nonempty_results_creates_dir (fun _ => true) (fun _ => none) (fun _ => none)
    [("recentResults", .arr [.obj []])] (.obj []) [] rfl rfl

/-! ## Claims C1-C4, C6, C9 -/

/-- A minimal qualifying result entry carrying the given screenshot payload. -/
def screenshotEntry (payload : String) : JVal :=
  .obj [("metadata", .obj [("screenshot", .str payload)])]

/-- C1 (amended): in the browser-mcp variant, a Direct-shape document of
well-shaped entries with all writes succeeding yields exactly K output files,
K detection blocks and N−K skip lines, where K is the number of entries whose
`metadata.screenshot` starts with `data:image/` and N the number of entries. -/
theorem mcp_per_entry_counts (loads : String → Option JVal) (strf : String → Option String)
    (kvs : List (String × JVal)) (entries : List JVal)
    (hC : lookupKey kvs "contents" = none)
    (hR : lookupKey kvs "recentResults" = some (.arr entries))
    (h : ∀ r ∈ entries, validEntry r = true) :
    (runMcp (.parsed (.obj kvs)) loads strf (fun _ => true)).files.length
        = entries.countP qualifies
    ∧ countDet (runMcp (.parsed (.obj kvs)) loads strf (fun _ => true)).events
        = entries.countP qualifies
    ∧ countSkip (runMcp (.parsed (.obj kvs)) loads strf (fun _ => true)).events
        = entries.length - entries.countP qualifies := by
  obtain ⟨evs, heq, hd, hsk, _⟩ := runMcp_direct_master loads strf kvs entries hC hR h
  rw [heq]
  exact ⟨mcpRunFiles_length strf entries 0 0, hd, hsk⟩

/-- Witness for the amended C1 on a two-entry document (one qualifying). -/
theorem mcp_per_entry_counts_witness :
    (runMcp (.parsed (.obj [("recentResults",
        .arr [screenshotEntry "data:image/png;base64,AAAA", .obj []])]))
        (fun _ => none) (fun _ => none) (fun _ => true)).files.length
      = [screenshotEntry "data:image/png;base64,AAAA", JVal.obj []].countP qualifies
    ∧ countDet (runMcp (.parsed (.obj [("recentResults",
        .arr [screenshotEntry "data:image/png;base64,AAAA", .obj []])]))
        (fun _ => none) (fun _ => none) (fun _ => true)).events
      = [screenshotEntry "data:image/png;base64,AAAA", JVal.obj []].countP qualifies
    ∧ countSkip (runMcp (.parsed (.obj [("recentResults",
        .arr [screenshotEntry "data:image/png;base64,AAAA", .obj []])]))
        (fun _ => none) (fun _ => none) (fun _ => true)).events
      = [screenshotEntry "data:image/png;base64,AAAA", JVal.obj []].length
        - [screenshotEntry "data:image/png;base64,AAAA", JVal.obj []].countP qualifies :=
  mcp_per_entry_counts (fun _ => none) (fun _ => none)
    [("recentResults", .arr [screenshotEntry "data:image/png;base64,AAAA", .obj []])]
    [screenshotEntry "data:image/png;base64,AAAA", .obj []] rfl rfl (by decide)

/-- Counterexample to C1 as stated: the root variant prints no per-entry line
for a non-qualifying entry.  On `{"recentResults": [{}]}` (N = 1, K = 0) the
claim demands one skip line; the root variant emits zero per-entry lines (and
rightly zero files). -/
theorem root_no_skip_lines_cex :
    countSkip (runRoot (fun _ => true)
        (.parsed (.obj [("recentResults", .arr [.obj []])]))).1.events = 0
    ∧ countDet (runRoot (fun _ => true)
        (.parsed (.obj [("recentResults", .arr [.obj []])]))).1.events = 0
    ∧ (runRoot (fun _ => true)
        (.parsed (.obj [("recentResults", .arr [.obj []])]))).1.files.length = 0
    ∧ countSkip (runRoot (fun _ => true)
        (.parsed (.obj [("recentResults", .arr [.obj []])]))).1.events ≠ 1 := by
  decide

/-- C2: unwrapping a Wrapped-shape document (non-empty `contents`, whose first
element's `text` decodes to a Direct-shape value) produces exactly the same
run — same prints, same files — as running the extractor on the decoded inner
value directly. -/
theorem wrapped_equals_direct (loads : String → Option JVal) (strf : String → Option String)
    (w : String → Bool) (wkvs fkvs ikvs : List (String × JVal)) (rest : List JVal)
    (txt : String) (inner : JVal)
    (hc : lookupKey wkvs "contents" = some (.arr (.obj fkvs :: rest)))
    (ht : lookupKey fkvs "text" = some (.str txt))
    (hl : loads txt = some inner)
    (hi : inner = .obj ikvs)
    (hic : lookupKey ikvs "contents" = none) :
    runMcp (.parsed (.obj wkvs)) loads strf w = runMcp (.parsed inner) loads strf w := by
  have h1 : mcpNormalize loads (.obj wkvs) = dictGet inner "recentResults" (.arr []) := by
    simp [mcpNormalize, pyIn, hc, pySubscript, pyLen, pyIndex, dictGet, ht, hl]
  have h2 : mcpNormalize loads inner = dictGet inner "recentResults" (.arr []) := by
    rw [hi]
    simp [mcpNormalize, pyIn, hic, dictGet, JVal.getD]
  simp only [runMcp, mcpBody, h1, h2]

/-- Witness for C2 on a concrete wrapped document. -/
theorem wrapped_equals_direct_witness :
    runMcp (.parsed (.obj [("contents", .arr [.obj [("text", .str "INNER")]])]))
        (fun s => if s = "INNER" then
          some (.obj [("recentResults", .arr [screenshotEntry "data:image/png;base64,AAAA"])])
          else none)
        (fun _ => none) (fun _ => true)
      = runMcp (.parsed (.obj [("recentResults",
          .arr [screenshotEntry "data:image/png;base64,AAAA"])]))
        (fun s => if s = "INNER" then
          some (.obj [("recentResults", .arr [screenshotEntry "data:image/png;base64,AAAA"])])
          else none)
        (fun _ => none) (fun _ => true) :=
  wrapped_equals_direct _ _ _ [("contents", .arr [.obj [("text", .str "INNER")]])]
    [("text", .str "INNER")]
    [("recentResults", .arr [screenshotEntry "data:image/png;base64,AAAA"])] [] "INNER"
    (.obj [("recentResults", .arr [screenshotEntry "data:image/png;base64,AAAA"])])
    rfl rfl rfl rfl rfl

/-- C3 (amended): in the root variant a refused write is caught and reported
(`writeError` with the filename) and the loop continues: the run raises no
exception, every refused qualifying write is counted, and any qualifying
entry whose own write the oracle accepts ends up in the written files, also
when earlier writes failed. -/
theorem root_write_failure_isolated (w : String → Bool)
    (kvs : List (String × JVal)) (entries : List JVal)
    (hR : lookupKey kvs "recentResults" = some (.arr entries))
    (h : ∀ r ∈ entries, validEntry r = true) :
    (runRoot w (.parsed (.obj kvs))).2 = none
    ∧ (runRoot w (.parsed (.obj kvs))).1.files = rootRunFiles w entries 0
    ∧ countWErr (runRoot w (.parsed (.obj kvs))).1.events = rootBadCount w entries 0
    ∧ ∀ j r, entries.get? j = some r → qualifies r = true →
        w (rootFilepathOf j r) = true →
        (rootFilepathOf j r, screenshotStrOf r) ∈ (runRoot w (.parsed (.obj kvs))).1.files := by
  obtain ⟨evs, heq, _, hwe, _⟩ := runRoot_direct_master w kvs entries hR h
  rw [heq]
  refine ⟨rfl, rfl, hwe, ?_⟩
  intro j r hj hq hwj
  have := rootRunFiles_mem w entries 0 j r hj hq (by simpa using hwj)
  simpa using this

/-- The write oracle that refuses exactly the first root output path of the
two-entry witness document below. -/
def rootRefuseFirst : String → Bool :=
  fun p => decide (p ≠ rootFilepathOf 0 (screenshotEntry "data:image/png;base64,AAAA"))

/-- Witness for the amended C3: two qualifying entries, the first write is
refused, the run still succeeds and the second entry is written. -/
theorem root_write_failure_isolated_witness :
    (runRoot rootRefuseFirst (.parsed (.obj [("recentResults",
        .arr [screenshotEntry "data:image/png;base64,AAAA",
              screenshotEntry "data:image/jpeg;base64,BBBB"])]))).2 = none
    ∧ (runRoot rootRefuseFirst (.parsed (.obj [("recentResults",
        .arr [screenshotEntry "data:image/png;base64,AAAA",
              screenshotEntry "data:image/jpeg;base64,BBBB"])]))).1.files
      = rootRunFiles rootRefuseFirst
          [screenshotEntry "data:image/png;base64,AAAA",
           screenshotEntry "data:image/jpeg;base64,BBBB"] 0
    ∧ countWErr (runRoot rootRefuseFirst (.parsed (.obj [("recentResults",
        .arr [screenshotEntry "data:image/png;base64,AAAA",
              screenshotEntry "data:image/jpeg;base64,BBBB"])]))).1.events
      = rootBadCount rootRefuseFirst
          [screenshotEntry "data:image/png;base64,AAAA",
           screenshotEntry "data:image/jpeg;base64,BBBB"] 0
    ∧ ∀ j r, [screenshotEntry "data:image/png;base64,AAAA",
              screenshotEntry "data:image/jpeg;base64,BBBB"].get? j = some r →
        qualifies r = true → rootRefuseFirst (rootFilepathOf j r) = true →
        (rootFilepathOf j r, screenshotStrOf r)
          ∈ (runRoot rootRefuseFirst (.parsed (.obj [("recentResults",
              .arr [screenshotEntry "data:image/png;base64,AAAA",
                    screenshotEntry "data:image/jpeg;base64,BBBB"])]))).1.files :=
  root_write_failure_isolated rootRefuseFirst
    [("recentResults", .arr [screenshotEntry "data:image/png;base64,AAAA",
        screenshotEntry "data:image/jpeg;base64,BBBB"])]
    [screenshotEntry "data:image/png;base64,AAAA",
     screenshotEntry "data:image/jpeg;base64,BBBB"] rfl (by decide)

/-- The write oracle that refuses exactly the first mcp output filename of the
two-entry document below. -/
def mcpRefuseFirst : String → Bool :=
  fun p => decide (p ≠ mcpFilename 1 "unknown_time" "unknown_url")

/-- Counterexample to C3 as stated: in the browser-mcp variant a single failed
write is not caught per-file — it aborts the whole batch through the top-level
handler.  Both entries qualify and the second entry's own write would succeed
(`mcpRefuseFirst` accepts its filename), yet the run writes no file at all and
ends with the generic unexpected-error report instead of a per-file message. -/
theorem mcp_write_failure_aborts_batch_cex :
    qualifies (screenshotEntry "data:image/jpeg;base64,BBBB") = true
    ∧ mcpRefuseFirst (mcpFilename 2 "unknown_time" "unknown_url") = true
    ∧ runMcp (.parsed (.obj [("recentResults",
        .arr [screenshotEntry "data:image/png;base64,AAAA",
              screenshotEntry "data:image/jpeg;base64,BBBB"])]))
        (fun _ => none) (fun _ => none) mcpRefuseFirst
      = ⟨[.readingFrom, .unexpectedError], [], true⟩ := by
  decide

theorem getLast?_cons_concat (x : LogEvent) (l : List LogEvent) (y : LogEvent) :
    (x :: (l ++ [y])).getLast? = some y := by
  rw [← List.cons_append, List.getLast?_concat]

/-- Every successful exit of the mcp body ends with one of the taxonomy's
terminal reports; otherwise the body hands an exception to the handlers. -/
theorem mcpBody_graceful (loads : String → Option JVal) (strf : String → Option String)
    (w : String → Bool) (data : JVal) :
    (∃ e, ((mcpBody loads strf w data).1.events).getLast? = some e ∧ isTerminal e = true)
    ∨ (mcpBody loads strf w data).2.isSome = true := by
  simp only [mcpBody]
  cases hn : mcpNormalize loads data with
  | error e => right; rfl
  | ok rr =>
    by_cases ht : truthy rr = true
    · simp only [ht, if_true]
      cases hit : pyIter rr with
      | error e => right; rfl
      | ok entries =>
        rcases hml : mcpLoop strf w entries 0 0 with ⟨evs, fls, count, err⟩
        simp only [hml]
        cases err with
        | some e => right; rfl
        | none =>
          left
          by_cases hc : count = 0
          · exact ⟨.noScreenshotsSummary,
              by simp only [hc, if_true]; exact getLast?_cons_concat _ _ _, rfl⟩
          · exact ⟨.successSummary count,
              by simp only [hc, if_false]; exact getLast?_cons_concat _ _ _, rfl⟩
    · simp only [ht, if_false]
      exact Or.inl ⟨.noResults, by simp [List.getLast?_append, List.getLast?_concat], rfl⟩

/-- C4 (amended): in the browser-mcp variant every run — whatever the input
file, the decoded document, the oracles — ends gracefully: no exception
escapes (`runMcp` is total) and the last line printed is one of the terminal
reports of the error taxonomy (file-not-found, parse error, no results, one of
the two summaries, or the top-level unexpected-error report). -/
theorem mcp_run_ends_gracefully (input : InputFile) (loads : String → Option JVal)
    (strf : String → Option String) (w : String → Bool) :
    ∃ e, (runMcp input loads strf w).events.getLast? = some e ∧ isTerminal e = true := by
  cases input with
  | missing => exact ⟨.fileNotFound, rfl, rfl⟩
  | unreadable => exact ⟨.unexpectedError, rfl, rfl⟩
  | invalid => exact ⟨.parseError, rfl, rfl⟩
  | parsed data =>
    rcases hb : mcpBody loads strf w data with ⟨st, err⟩
    cases err with
    | some e =>
      cases e with
      | jsonDecode =>
        exact ⟨.parseError,
          by simp [runMcp, hb, List.getLast?_append, List.getLast?_concat], rfl⟩
      | attrErr =>
        exact ⟨.unexpectedError,
          by simp [runMcp, hb, List.getLast?_append, List.getLast?_concat], rfl⟩
      | typeErr =>
        exact ⟨.unexpectedError,
          by simp [runMcp, hb, List.getLast?_append, List.getLast?_concat], rfl⟩
      | keyErr =>
        exact ⟨.unexpectedError,
          by simp [runMcp, hb, List.getLast?_append, List.getLast?_concat], rfl⟩
      | indexErr =>
        exact ⟨.unexpectedError,
          by simp [runMcp, hb, List.getLast?_append, List.getLast?_concat], rfl⟩
      | osErr =>
        exact ⟨.unexpectedError,
          by simp [runMcp, hb, List.getLast?_append, List.getLast?_concat], rfl⟩
    | none =>
      rcases mcpBody_graceful loads strf w data with ⟨e, he, hte⟩ | hsome
      · rw [hb] at he
        exact ⟨e, by simp [runMcp, hb]; exact he, hte⟩
      · rw [hb] at hsome
        simp at hsome

/-- Counterexample to C4 as stated: in the root variant a document whose
`recentResults` is a truthy non-sized value makes `len(recent_results)` raise
`TypeError`, and nothing catches it — the exception escapes to the caller. -/
theorem root_unhandled_exception_cex :
    (runRoot (fun _ => true) (.parsed (.obj [("recentResults", .num 5)]))).2
      = some PyErr.typeErr := by
  decide

/-- C6: the content of every written file is the corresponding entry's whole
`metadata.screenshot` string, unmodified: in both variants (all writes
accepted) the written contents, in order, are exactly the screenshot strings
of the qualifying entries, so reading any file back gives the original string
byte for byte. -/
theorem file_content_is_screenshot (loads : String → Option JVal)
    (strf : String → Option String) (kvs : List (String × JVal)) (entries : List JVal)
    (hC : lookupKey kvs "contents" = none)
    (hR : lookupKey kvs "recentResults" = some (.arr entries))
    (h : ∀ r ∈ entries, validEntry r = true) :
    ((runRoot (fun _ => true) (.parsed (.obj kvs))).1.files).map Prod.snd
        = (entries.filter qualifies).map screenshotStrOf
    ∧ ((runMcp (.parsed (.obj kvs)) loads strf (fun _ => true)).files).map Prod.snd
        = (entries.filter qualifies).map screenshotStrOf := by
  obtain ⟨evsR, heqR, _, _, _⟩ := runRoot_direct_master (fun _ => true) kvs entries hR h
  obtain ⟨evsM, heqM, _, _, _⟩ := runMcp_direct_master loads strf kvs entries hC hR h
  rw [heqR, heqM]
  exact ⟨rootRunFiles_map_snd entries 0, mcpRunFiles_map_snd strf entries 0 0⟩

/-- Witness for C6 on a two-entry document (one qualifying). -/
theorem file_content_is_screenshot_witness :
    ((runRoot (fun _ => true) (.parsed (.obj [("recentResults",
        .arr [screenshotEntry "data:image/png;base64,AAAA", .obj []])]))).1.files).map Prod.snd
      = ([screenshotEntry "data:image/png;base64,AAAA",
          JVal.obj []].filter qualifies).map screenshotStrOf
    ∧ ((runMcp (.parsed (.obj [("recentResults",
        .arr [screenshotEntry "data:image/png;base64,AAAA", .obj []])]))
        (fun _ => none) (fun _ => none) (fun _ => true)).files).map Prod.snd
      = ([screenshotEntry "data:image/png;base64,AAAA",
          JVal.obj []].filter qualifies).map screenshotStrOf :=
  file_content_is_screenshot (fun _ => none) (fun _ => none)
    [("recentResults", .arr [screenshotEntry "data:image/png;base64,AAAA", .obj []])]
    [screenshotEntry "data:image/png;base64,AAAA", .obj []] rfl rfl (by decide)

/-- C9: in the browser-mcp variant (Direct-shape document of well-shaped
entries, all writes accepted) the counters embedded in the output filenames
are exactly 1, 2, …, K in order of writing — strictly increasing — and hence
all filenames of the run are pairwise distinct: no file written during the run
is overwritten by a later write of the same run. -/
theorem mcp_filenames_distinct (loads : String → Option JVal) (strf : String → Option String)
    (kvs : List (String × JVal)) (entries : List JVal)
    (hC : lookupKey kvs "contents" = none)
    (hR : lookupKey kvs "recentResults" = some (.arr entries))
    (h : ∀ r ∈ entries, validEntry r = true) :
    ((runMcp (.parsed (.obj kvs)) loads strf (fun _ => true)).files.map
        (fun f => fileCounter f.1))
      = List.range' 1 (entries.countP qualifies)
    ∧ ((runMcp (.parsed (.obj kvs)) loads strf (fun _ => true)).files.map
        (fun f => fileCounter f.1)).Pairwise (· < ·)
    ∧ ((runMcp (.parsed (.obj kvs)) loads strf (fun _ => true)).files.map Prod.fst).Nodup := by
  obtain ⟨evs, heq, _, _, _⟩ := runMcp_direct_master loads strf kvs entries hC hR h
  rw [heq]
  have hcnt : (mcpRunFiles strf entries 0 0).map (fun f => fileCounter f.1)
      = List.range' 1 (entries.countP qualifies) := by
    simpa using mcpRunFiles_counters strf entries 0 0
  refine ⟨hcnt, ?_, ?_⟩
  · rw [hcnt]
    exact List.pairwise_lt_range' 1 (entries.countP qualifies)
  · have hmm : ((mcpRunFiles strf entries 0 0).map Prod.fst).map fileCounter
        = List.range' 1 (entries.countP qualifies) := by
      rw [List.map_map]
      exact hcnt
    exact List.Nodup.of_map fileCounter
      (hmm ▸ List.nodup_range' 1 (entries.countP qualifies))

/-- Witness for C9 on a three-entry document with two qualifying entries. -/
theorem mcp_filenames_distinct_witness :
    ((runMcp (.parsed (.obj [("recentResults",
        .arr [screenshotEntry "data:image/png;base64,AAAA", .obj [],
              screenshotEntry "data:image/jpeg;base64,BBBB"])]))
        (fun _ => none) (fun _ => none) (fun _ => true)).files.map
        (fun f => fileCounter f.1))
      = List.range' 1 ([screenshotEntry "data:image/png;base64,AAAA", JVal.obj [],
          screenshotEntry "data:image/jpeg;base64,BBBB"].countP qualifies)
    ∧ ((runMcp (.parsed (.obj [("recentResults",
        .arr [screenshotEntry "data:image/png;base64,AAAA", .obj [],
              screenshotEntry "data:image/jpeg;base64,BBBB"])]))
        (fun _ => none) (fun _ => none) (fun _ => true)).files.map
        (fun f => fileCounter f.1)).Pairwise (· < ·)
    ∧ ((runMcp (.parsed (.obj [("recentResults",
        .arr [screenshotEntry "data:image/png;base64,AAAA", .obj [],
              screenshotEntry "data:image/jpeg;base64,BBBB"])]))
        (fun _ => none) (fun _ => none) (fun _ => true)).files.map Prod.fst).Nodup :=
  mcp_filenames_distinct (fun _ => none) (fun _ => none)
    [("recentResults", .arr [screenshotEntry "data:image/png;base64,AAAA", .obj [],
        screenshotEntry "data:image/jpeg;base64,BBBB"])]
    [screenshotEntry "data:image/png;base64,AAAA", .obj [],
     screenshotEntry "data:image/jpeg;base64,BBBB"] rfl rfl (by decide)
